import Mathlib

/-!
Verification of the arxml-viewer configuration core.

This file gives a shallow embedding, in Lean, of the instance-management and
parsing logic of the repository:

* `ConfigContainer` and its lifecycle methods from
  `src/python-backend/lib/xdm_processor.py` (`create_instance`,
  `delete_instance`, `set_variable_value`, `get_variable_value`),
* the `XDMProcessor` operations built on top of them (`add_instance`,
  `delete_instance`, `switch_instance`, `copy_instance`, `set_variable_value`,
  `reset_to_defaults`),
* the control flow of `ARXMLProcessor.parse_arxml_file` from
  `src/python-backend/lib/arxml_processor.py`,
* `XMLProcessor.extract_structure` and its helpers from
  `src/python-backend/lib/xml_processor.py`,
* `ARXMLTreeBuilder._build_parameter_value`'s numerical coercion from
  `src/python-backend/arxml_tree_builder.py`, and
* `VSCodeBackend._parse_arxml_file` / `_error_response` from
  `src/python-backend/processors.py`.

Python dictionaries are modelled as insertion-ordered association lists
(`dictGet` / `dictSet`); Python lists as Lean lists.  Values stored in
variables are modelled as strings (the code only stores XML text).
Timestamps and log output are omitted: no claim observes them.
-/

namespace ArxmlViewer

/-! ### Association-list dictionaries (Python `dict`) -/

/-- Python dict lookup: first binding of the key (keys are unique in any
state produced by Python code, so "first" is "the" binding). -/
def dictGet {α : Type} (m : List (String × α)) (k : String) : Option α :=
  match m with
  | [] => none
  | p :: rest => if p.1 = k then some p.2 else dictGet rest k

/-- Python dict assignment `m[k] = v`: replace the value at an existing key,
otherwise append the new binding at the end (insertion order). -/
def dictSet {α : Type} (m : List (String × α)) (k : String) (v : α) :
    List (String × α) :=
  match m with
  | [] => [(k, v)]
  | p :: rest => if p.1 = k then (p.1, v) :: rest else p :: dictSet rest k v

/-- First binding (key and value) of a key, used in proofs about `dictGet`. -/
def dictFind {α : Type} (m : List (String × α)) (k : String) :
    Option (String × α) :=
  match m with
  | [] => none
  | p :: rest => if p.1 = k then some p else dictFind rest k

/-- In-place update of a Python list at one index (`l[i] = f(l[i])`);
out-of-range indices leave the list unchanged. -/
def modifyIdx {α : Type} (l : List α) (i : Nat) (f : α → α) : List α :=
  match l, i with
  | [], _ => []
  | a :: rest, 0 => f a :: rest
  | a :: rest, Nat.succ n => a :: modifyIdx rest n f

/-! ### The live configuration model (`ConfigContainer`) -/

/-- Container multiplicity: the string `"*"` or a numeric string `"n"`
(`xdm_processor.py` stores the raw string and calls `int` on it; claims only
involve `"*"` and numeric strings, so we model exactly those). -/
inductive Mult where
  | star : Mult
  | num : Nat → Mult
deriving DecidableEq

/-- The slice of a variable-definition dict that the lifecycle code reads:
`definition.get('default', '')`.  `none` models a dict without a
`'default'` key. -/
structure VarDef where
  defaultValue : Option String
deriving DecidableEq

/-- `definition.get('default', '')` from the Python code. -/
def VarDef.getDefault (d : VarDef) : String := d.defaultValue.getD ""

/-- One entry of `ConfigContainer.vars`:
`{'definition': ..., 'values': [...]}`. -/
structure VarInfo where
  definition : VarDef
  values : List String
deriving DecidableEq

/-- One entry of `ConfigContainer.instances`: the `instance_data` dict built
by `create_instance` (the `created_time` field is omitted). -/
structure Instance where
  id : Nat
  name : String
  vars : List (String × String)
deriving DecidableEq

/-- `ConfigContainer` (xdm_processor.py:24-135).  `children`, `parent` and
the free-form `definition` dict are omitted: only `multiplicity` (read from
the definition) and the fields below are observed by the claims. -/
structure Container where
  name : String
  multiplicity : Mult
  vars : List (String × VarInfo)
  instances : List Instance
  current_instance : Nat
deriving DecidableEq

/-- A dummy instance used to model Python's (always in-range) list indexing
through `List.getD`. -/
def dummyInstance : Instance := { id := 0, name := "", vars := [] }

/-- `ConfigContainer.add_variable` (xdm_processor.py:37-42). -/
def Container.addVariable (c : Container) (varName : String) (d : VarDef) :
    Container :=
  { c with vars := dictSet c.vars varName { definition := d, values := [] } }

/-- The limit test of `create_instance` (xdm_processor.py:51):
`self.multiplicity != '*' and len(self.instances) >= int(self.multiplicity)`. -/
def Container.atLimit (c : Container) : Bool :=
  match c.multiplicity with
  | .star => false
  | .num n => n ≤ c.instances.length

/-- The `while len(var_info['values']) <= instance_id: append(default)` loop
of `create_instance` (xdm_processor.py:67-69). -/
def seedValues (instId : Nat) (vi : VarInfo) : VarInfo :=
  { vi with values :=
      (vi.values ++ List.replicate (instId + 1 - vi.values.length)
        vi.definition.getDefault) }

/-- `ConfigContainer.create_instance` (xdm_processor.py:49-72).  Returns the
new instance id and the updated container, or the `ValueError` message when
the container is at its numeric multiplicity bound. -/
def Container.createInstance (c : Container) :
    Except String (Nat × Container) :=
  if c.atLimit then .error "InstanceLimitExceeded"
  else
    let instId := c.instances.length
    let inst : Instance :=
      { id := instId
        name := c.name ++ "_" ++ toString instId
        vars := c.vars.map
          (fun p => (p.1, p.2.definition.getDefault)) }
    .ok (instId,
      { c with
        vars := c.vars.map (fun p => (p.1, seedValues instId p.2))
        instances := c.instances ++ [inst] })

/-- The renumbering loop of `delete_instance` (xdm_processor.py:78-81):
`instance['id'] = i; instance['name'] = f"{name}_{i}"` over the enumerated
survivors. -/
def renumberFrom (cname : String) (l : List Instance) : List Instance :=
  l.enum.map (fun p =>
    { p.2 with id := p.1, name := cname ++ "_" ++ toString p.1 })

/-- `ConfigContainer.delete_instance` (xdm_processor.py:74-93): remove the
instance, renumber the survivors `0..n-1`, splice each value sequence at the
deleted index (only when that index is in its range), and clamp
`current_instance`.  Returns `false` and the unchanged container when the id
is out of range. -/
def Container.deleteInstance (c : Container) (instId : Nat) :
    Bool × Container :=
  if instId < c.instances.length then
    let insts := renumberFrom c.name (c.instances.eraseIdx instId)
    let vars := c.vars.map (fun p =>
      (p.1, { p.2 with values :=
        (if instId < p.2.values.length then p.2.values.eraseIdx instId
         else p.2.values) }))
    let cur := if insts.length ≤ c.current_instance then insts.length - 1
      else c.current_instance
    (true, { c with vars := vars, instances := insts, current_instance := cur })
  else (false, c)

/-- `ConfigContainer.set_variable_value` (xdm_processor.py:95-115).
`iid = none` models the defaulted `instance_id=None` argument (current
instance).  Instance ids are modelled as naturals, so Python's implicit
lower-bound behaviour for negative ids is out of scope. -/
def Container.setVariableValue (c : Container) (varName value : String)
    (iid : Option Nat) : Bool × Container :=
  match dictGet c.vars varName with
  | none => (false, c)
  | some _ =>
    let instId := iid.getD c.current_instance
    if c.instances.length ≤ instId then (false, c)
    else
      let insts := modifyIdx c.instances instId (fun inst =>
        { inst with vars := dictSet inst.vars varName value })
      let vars := c.vars.map (fun p =>
        if p.1 = varName then
          (p.1, { p.2 with values := (seedValues instId p.2).values.set instId value })
        else p)
      (true, { c with vars := vars, instances := insts })

/-- `ConfigContainer.get_variable_value` (xdm_processor.py:117-129).
Returns `none` exactly when the variable is unknown (Python `None`). -/
def Container.getVariableValue (c : Container) (varName : String)
    (iid : Option Nat) : Option String :=
  match dictGet c.vars varName with
  | none => none
  | some vi =>
    let instId := iid.getD c.current_instance
    if c.instances.length ≤ instId then some vi.definition.getDefault
    else
      let inst := c.instances.getD instId dummyInstance
      some ((dictGet inst.vars varName).getD vi.definition.getDefault)

/-- A fresh container as built by `_create_containers_from_structure` /
`get_container`: a name, a multiplicity, the declared variables added through
`add_variable`, no instances yet. -/
def mkContainer (name : String) (m : Mult) (defs : List (String × VarDef)) :
    Container :=
  defs.foldl (fun c p => c.addVariable p.1 p.2)
    { name := name, multiplicity := m, vars := [], instances := []
      current_instance := 0 }

/-! ### The processor layer (`XDMProcessor`) -/

/-- One entry of `XDMProcessor.configuration_history` (`_record_change`,
xdm_processor.py:931-943); the timestamp and detail dict are omitted. -/
structure ChangeRecord where
  action : String
  container_path : String
deriving DecidableEq

/-- A Python exception escaping an operation unhandled. -/
inductive PyError where
  | zeroDivision : PyError
deriving DecidableEq

/-- The slice of `XDMProcessor` state the instance-management claims observe:
the `all_containers` flat map, the change history, and the modification
count.  `get_container`'s secondary path through the raw `containers` dict
builds a throwaway object whose mutations are lost, so the live model is the
`all_containers` view. -/
structure Proc where
  all_containers : List (String × Container)
  configuration_history : List ChangeRecord
  modification_count : Nat
deriving DecidableEq

/-- `XDMProcessor.get_container` restricted to the `all_containers` map. -/
def Proc.getContainer (p : Proc) (path : String) : Option Container :=
  dictGet p.all_containers path

/-- Write back the (in Python, in-place) mutation of a container. -/
def Proc.setContainer (p : Proc) (path : String) (c : Container) : Proc :=
  { p with all_containers := dictSet p.all_containers path c }

/-- `XDMProcessor._record_change` (xdm_processor.py:931-943). -/
def Proc.recordChange (p : Proc) (action path : String) : Proc :=
  { p with
    configuration_history :=
      p.configuration_history ++ [{ action := action, container_path := path }]
    modification_count := p.modification_count + 1 }

/-- `XDMProcessor.add_instance` (xdm_processor.py:1096-1111): the
`ValueError` raised by `create_instance` at the multiplicity bound is caught
and reported as `False`, leaving the processor unchanged. -/
def Proc.addInstance (p : Proc) (path : String) : Bool × Proc :=
  match p.getContainer path with
  | none => (false, p)
  | some c =>
    match c.createInstance with
    | .ok r => (true, (p.setContainer path r.2).recordChange "add_instance" path)
    | .error _ => (false, p)

/-- `XDMProcessor.delete_instance` (xdm_processor.py:1113-1128); `iid = none`
deletes the current instance. -/
def Proc.deleteInstance (p : Proc) (path : String) (iid : Option Nat) :
    Bool × Proc :=
  match p.getContainer path with
  | none => (false, p)
  | some c =>
    let instId := iid.getD c.current_instance
    match c.deleteInstance instId with
    | (true, c') =>
      (true, (p.setContainer path c').recordChange "delete_instance" path)
    | (false, _) => (false, p)

/-- The in-range update step of `switch_instance`
(xdm_processor.py:1140-1148). -/
def switchTo (p : Proc) (path : String) (c : Container) (instId : Nat) :
    Except PyError (Bool × Proc) :=
  if instId < c.instances.length then
    .ok (true,
      (p.setContainer path { c with current_instance := instId }).recordChange
        "switch_instance" path)
  else .ok (false, p)

/-- `XDMProcessor.switch_instance` (xdm_processor.py:1130-1149).  With the
id omitted the code computes `(current + 1) % len(container.instances)`,
which raises `ZeroDivisionError` when the instance list is empty; the
`Except` layer records exactly that possibility. -/
def Proc.switchInstance (p : Proc) (path : String) (iid : Option Nat) :
    Except PyError (Bool × Proc) :=
  match p.getContainer path with
  | none => .ok (false, p)
  | some c =>
    match iid with
    | none =>
      if c.instances.length = 0 then .error .zeroDivision
      else switchTo p path c ((c.current_instance + 1) % c.instances.length)
    | some instId => switchTo p path c instId

/-- `XDMProcessor.set_variable_value` (xdm_processor.py:684-707), without the
global-variable branch (no claim involves global variables). -/
def Proc.setVariableValue (p : Proc) (path varName value : String)
    (iid : Option Nat) : Bool × Proc :=
  match p.getContainer path with
  | none => (false, p)
  | some c =>
    match c.setVariableValue varName value iid with
    | (true, c') =>
      (true, (p.setContainer path c').recordChange "modify_variable" path)
    | (false, _) => (false, p)

/-- The per-variable copy loop of `copy_instance`
(xdm_processor.py:1189-1191): fold `set_variable_value` over the source
instance's snapshot dict. -/
def copyVars (c : Container) (srcVars : List (String × String)) (tgt : Nat) :
    Container :=
  srcVars.foldl (fun acc pv => (acc.setVariableValue pv.1 pv.2 (some tgt)).2) c

/-- `XDMProcessor.copy_instance` (xdm_processor.py:1178-1199).  When the
target id is omitted a fresh instance is created first — and the
`ValueError` of `create_instance` then propagates (the `Except` error). -/
def Proc.copyInstance (p : Proc) (path : String) (src : Nat)
    (tgt : Option Nat) : Except String (Bool × Proc) :=
  match p.getContainer path with
  | none => .ok (false, p)
  | some c =>
    if src < c.instances.length then
      match tgt with
      | none =>
        match c.createInstance with
        | .error e => .error e
        | .ok r =>
          let srcVars := (r.2.instances.getD src dummyInstance).vars
          .ok (true,
            ((p.setContainer path (copyVars r.2 srcVars r.1)).recordChange
              "copy_instance" path))
      | some t =>
        if c.instances.length ≤ t then .ok (false, p)
        else
          let srcVars := (c.instances.getD src dummyInstance).vars
          .ok (true,
            ((p.setContainer path (copyVars c srcVars t)).recordChange
              "copy_instance" path))
    else .ok (false, p)

/-- The per-container body of `reset_to_defaults`
(xdm_processor.py:951-955): clear the instances, reset the current index,
create one default instance (which raises at a numeric multiplicity bound of
zero — the `Except` error). -/
def resetContainer (c : Container) : Except String Container :=
  (Container.createInstance
    { c with instances := [], current_instance := 0 }).map (fun r => r.2)

/-- `XDMProcessor.reset_to_defaults` (xdm_processor.py:949-959): reset every
container to a single default instance, then clear the history and the
modification count. -/
def Proc.resetToDefaults (p : Proc) : Except String Proc := do
  let cs ← p.all_containers.mapM (fun pr => do
    let c' ← resetContainer pr.2
    pure (pr.1, c'))
  pure { all_containers := cs, configuration_history := []
         modification_count := 0 }

/-! ### Operation sequences (reachable container states) -/

/-- One container-level mutating operation, as dispatched by the processor:
failed creations and deletions leave the container unchanged. -/
inductive InstOp where
  | create : InstOp
  | delete : Nat → InstOp
  | setVar : String → String → Option Nat → InstOp
deriving DecidableEq

/-- Apply one operation to a container. -/
def applyOp (c : Container) : InstOp → Container
  | .create =>
    match c.createInstance with
    | .ok r => r.2
    | .error _ => c
  | .delete i => (c.deleteInstance i).2
  | .setVar v x i => (c.setVariableValue v x i).2

/-- Apply a finite sequence of operations. -/
def applyOps (c : Container) (ops : List InstOp) : Container :=
  ops.foldl applyOp c

/-! ### Decision helpers and scenario constants -/

/-- `True` exactly on the `ValueError` of `create_instance` at the
multiplicity bound. -/
def isLimitError : Except String (Nat × Container) → Bool
  | .error e => e = "InstanceLimitExceeded"
  | .ok _ => false

/-- The container of the spec's Scenario B: declared multiplicity `"2"`. -/
def scenarioB : Container :=
  mkContainer "B" (.num 2) [("v", { defaultValue := some "0" })]

/-- `True` exactly on the unhandled `ZeroDivisionError` outcome. -/
def isZeroDivisionError : Except PyError (Bool × Proc) → Bool
  | .error .zeroDivision => true
  | .ok _ => false

/-- A processor holding one container with one (default) instance. -/
def c9Start : Proc :=
  Proc.mk [("Ch", applyOps (mkContainer "Ch" (.num 1) []) [.create])] [] 0

/-! ### Invariants and specification predicates -/

/-- The keys of an association list, in order. -/
def keysOf {α : Type} (m : List (String × α)) : List String := m.map Prod.fst

/-- Instance ids are exactly the dense range `0..count-1`, in order. -/
def idsDense (c : Container) : Prop :=
  c.instances.map Instance.id = List.range c.instances.length

/-- Every variable's value sequence is at least as long as the instance
list (spec invariant 3). -/
def valuesCover (c : Container) : Prop :=
  ∀ pr ∈ c.vars, c.instances.length ≤ (Prod.snd pr).values.length

/-- Every instance's variable dict has exactly the container's variable
keys, in order (instances are seeded from `container.variables`). -/
def instKeysMatch (c : Container) : Prop :=
  ∀ inst ∈ c.instances, keysOf inst.vars = keysOf c.vars

/-- Well-formedness of a reachable container: dense ids, covering value
sequences, aligned instance dicts, and distinct variable keys (a Python
dict cannot hold duplicate keys). -/
def Wf (c : Container) : Prop :=
  idsDense c ∧ valuesCover c ∧ instKeysMatch c ∧ (keysOf c.vars).Nodup

/-- What one successful deletion does: it succeeds, keeps the surviving
instances' data in their original relative order, renumbers their ids to
`0..n-2`, and removes the deleted index from every variable's value
sequence. -/
def deleteSpec (c : Container) (instId : Nat) : Prop :=
  (c.deleteInstance instId).1 = true
  ∧ (c.deleteInstance instId).2.instances.map Instance.vars
      = (c.instances.eraseIdx instId).map Instance.vars
  ∧ (c.deleteInstance instId).2.instances.map Instance.id
      = List.range (c.instances.length - 1)
  ∧ (c.deleteInstance instId).2.vars.map (fun pr => (pr.1, pr.2.values))
      = c.vars.map (fun pr => (pr.1, pr.2.values.eraseIdx instId))

/-- An empty placeholder container, used only to totalise observations of
`Proc` states at paths that are present by construction. -/
def emptyContainer : Container :=
  { name := "", multiplicity := .star, vars := [], instances := []
    current_instance := 0 }

/-- The container stored at a path (total observation). -/
def Proc.containerAt (p : Proc) (path : String) : Container :=
  (p.getContainer path).getD emptyContainer

/-! ### `ARXMLProcessor.parse_arxml_file` control flow -/

/-- Outcome of the `autosar44.parse` call together with the subsequent
extraction phase (`_extract_packages`, `_extract_module_configurations`,
`_build_container_hierarchy` — whose internal handlers log and count errors
but never re-raise):

* `exc` — an exception escapes to the top-level handler of
  `parse_arxml_file` (for example `autosar44.parse` itself raises);
* `strOut` — `autosar44.parse` returns a raw-XML string;
* `falsy` — it returns an empty/`None` result;
* `parsed cs vs` — it returns a typed root whose extraction would populate
  the flat `containers` map `cs` and `variables` map `vs`.

The map-entry types are type parameters: the control flow never inspects
them. -/
inductive A44Outcome (α β : Type) where
  | exc : A44Outcome α β
  | strOut : A44Outcome α β
  | falsy : A44Outcome α β
  | parsed : List (String × α) → List (String × β) → A44Outcome α β

/-- The result shape of `XMLProcessor.extract_structure` as consumed by
`_parse_with_xml_processor`. -/
structure XPStructure (α β : Type) where
  containers : List (String × α)
  parameters : List (String × β)

/-- The caller-observable outcome of `parse_arxml_file`: the returned
boolean and the processor's `containers` / `variables` maps afterwards. -/
structure A44ParseOutcome (α β : Type) where
  success : Bool
  containers : List (String × α)
  varsMap : List (String × β)
  isDefinitionFile : Bool

/-- `ARXMLProcessor._parse_with_xml_processor` (arxml_processor.py:126-154):
`xp = none` models `XMLProcessor.parse` returning `None` (failure); on
success the extracted structure replaces the processor's maps.  On every
path that reaches this fallback the processor's maps are still empty, which
the `none` branch reflects. -/
def parseWithXmlProcessor {α β : Type} (xp : Option (XPStructure α β)) :
    A44ParseOutcome α β :=
  match xp with
  | none =>
    { success := false, containers := [], varsMap := []
      isDefinitionFile := true }
  | some s =>
    { success := true, containers := s.containers, varsMap := s.parameters
      isDefinitionFile := true }

/-- `ARXMLProcessor.parse_arxml_file` (arxml_processor.py:73-124).  The
branch order follows the source: missing file; the top-level `except`
(which returns `False` directly — no fallback); the `is_bswmd or
is_string_output` fallback; the `not self.root_element` fallback; the
"parsed but zero containers and zero variables" fallback; success. -/
def parseA44File {α β : Type} (fileExists isBswmd : Bool)
    (a44 : A44Outcome α β) (xp : Option (XPStructure α β)) :
    A44ParseOutcome α β :=
  if !fileExists then
    { success := false, containers := [], varsMap := []
      isDefinitionFile := false }
  else
    match a44 with
    | .exc =>
      { success := false, containers := [], varsMap := []
        isDefinitionFile := false }
    | .strOut => parseWithXmlProcessor xp
    | .falsy => parseWithXmlProcessor xp
    | .parsed cs vs =>
      if isBswmd then parseWithXmlProcessor xp
      else if cs.isEmpty && vs.isEmpty then parseWithXmlProcessor xp
      else
        { success := true, containers := cs, varsMap := vs
          isDefinitionFile := false }

/-- A nonempty generic-walker output used to exhibit the C1 counterexample. -/
def c1FallbackStructure : XPStructure String String :=
  { containers := [("M", "module")], parameters := [] }

/-! ### Numerical parameter-value coercion (`_build_parameter_value`) -/

/-- Bool-valued list-prefix test. -/
def prefixOfB : List Char → List Char → Bool
  | [], _ => true
  | _ :: _, [] => false
  | a :: as, b :: bs => a == b && prefixOfB as bs

/-- Bool-valued list-infix test. -/
def infixOfB (needle : List Char) : List Char → Bool
  | [] => prefixOfB needle []
  | b :: bs => prefixOfB needle (b :: bs) || infixOfB needle bs

/-- Python's `needle in hay` substring test. -/
def strContainsB (hay needle : String) : Bool :=
  infixOfB needle.toList hay.toList

/-- ASCII whitespace, the relevant alphabet of Python `str.strip()` here. -/
def isSpaceChar (c : Char) : Bool :=
  c == ' ' || c == '\t' || c == '\n' || c == '\r'

/-- Python `str.strip()` (ASCII whitespace: all document text is ASCII). -/
def pyStrip (s : String) : String :=
  .mk (((s.toList.dropWhile isSpaceChar).reverse.dropWhile
    isSpaceChar).reverse)

/-- ASCII upper-casing of one character. -/
def upcaseChar (c : Char) : Char :=
  if 'a' ≤ c && c ≤ 'z' then Char.ofNat (c.toNat - 32) else c

/-- Python `str.upper()` on the ASCII tag names this code classifies. -/
def pyUpper (s : String) : String := .mk (s.toList.map upcaseChar)

/-- The characters after the last occurrence of `sep` (the whole list when
`sep` does not occur): Python `s.split(sep)[-1]`. -/
def afterLastSep (sep : Char) (l : List Char) : List Char :=
  l.foldl (fun acc c => if c == sep then [] else acc ++ [c]) []

/-- The `type`/`value` pair produced for a numerical parameter value. -/
structure NumValueResult where
  ptype : String
  value : String
deriving DecidableEq

/-- The coercion applied by `ARXMLTreeBuilder._build_parameter_value` to an
`ECUC-NUMERICAL-PARAM-VALUE` (arxml_tree_builder.py:636-648).  Python's
`int(...)` and `float(...)` are oracle parameters: `intOf` yields the parsed
integer on success, `floatOf` yields the rendering `str(float(...))` on
success; both yield `none` when the conversion raises `ValueError`. -/
def coerceNumericalValue (intOf : String → Option Int)
    (floatOf : String → Option String) (definitionRef value : String) :
    NumValueResult :=
  if strContainsB definitionRef "BOOLEAN" then
    { ptype := "boolean", value := if value = "1" then "true" else "false" }
  else
    match intOf value with
    | some n => { ptype := "number", value := toString n }
    | none =>
      match floatOf value with
      | some f => { ptype := "number", value := f }
      | none => { ptype := "string", value := value }

/-! ### The backend response (`VSCodeBackend._parse_arxml_file`) -/

/-- A frontend `TreeNode` as emitted by the backend.  Parameter entries are
opaque here: no claim inspects their shape, only their presence. -/
structure TreeNode where
  id : String
  name : String
  ntype : String
  path : String
  children : List TreeNode
  parameters : List String

/-- The placeholder node of `_error_response` (processors.py:396-403). -/
def errorNode : TreeNode :=
  { id := "error", name := "Error", ntype := "error", path := ""
    children := [], parameters := [] }

/-- The metadata block of a backend response. -/
structure BackendMeta where
  totalContainers : Nat
  totalParameters : Nat
  totalElements : Nat
deriving DecidableEq

/-- The JSON-compatible response of the backend parse entry points. -/
structure BackendResponse where
  success : Bool
  error : Option String
  fileType : String
  filePath : String
  treeStructure : TreeNode
  metadata : BackendMeta

/-- `VSCodeBackend._error_response` (processors.py:389-409): a structured
failure value with the empty placeholder tree and zeroed statistics. -/
def errorResponse (msg : String) : BackendResponse :=
  { success := false, error := some msg, fileType := "unknown", filePath := ""
    treeStructure := errorNode
    metadata := { totalContainers := 0, totalParameters := 0
                  totalElements := 0 } }

/-- Outcome of the `ET.parse` attempt inside `_parse_arxml_file`. -/
inductive ETOutcome where
  | parseError : String → ETOutcome
  | parsed : ETOutcome

/-- `VSCodeBackend._parse_arxml_file` (processors.py:51-94).  The DaVinci
tree builder's output and the counted statistics are parameters: they are
only computed on the success path.  Error messages are abbreviated English
stand-ins for the source's messages. -/
def backendParseArxml (filePath : String) (fileExists : Bool)
    (et : ETOutcome) (validArxml : Bool) (treeOut : TreeNode)
    (totalElements containersCount parametersCount : Nat) : BackendResponse :=
  if !fileExists then errorResponse ("file not found: " ++ filePath)
  else
    match et with
    | .parseError msg => errorResponse ("XML ParseError: " ++ msg)
    | .parsed =>
      if !validArxml then errorResponse "not a valid ARXML file"
      else
        { success := true, error := none, fileType := "arxml"
          filePath := filePath, treeStructure := treeOut
          metadata := { totalContainers := containersCount
                        totalParameters := parametersCount
                        totalElements := totalElements } }

/-! ### The generic XML walker (`XMLProcessor.extract_structure`) -/

/-- A raw XML element: tag, (stripped) text, ordered children.  Attributes
are omitted — `extract_structure` reads none.  Tags are local names: the
model covers documents without namespaces, for which `find_elements` builds
its query from the bare local name (xml_processor.py:102-103). -/
inductive XElem where
  | node : String → String → List XElem → XElem

/-- The element's tag. -/
def XElem.tag : XElem → String
  | .node t _ _ => t

/-- The element's text (already stripped in this model). -/
def XElem.text : XElem → String
  | .node _ x _ => x

/-- The element's ordered children. -/
def XElem.children : XElem → List XElem
  | .node _ _ c => c

/-- All strict descendants of an element in document order — the candidate
set of an ElementTree `.//` query.  The fuel bounds the recursion depth;
with fuel at least the height of the element it is exact, and the concrete
documents below are evaluated with ample fuel. -/
def descendants : Nat → XElem → List XElem
  | 0, _ => []
  | Nat.succ fuel, e => (e.children.map (fun c => c :: descendants fuel c)).flatten

/-- `XMLProcessor.find_elements` (xml_processor.py:82-109) on a
namespace-free document: all descendants carrying the tag name. -/
def findElements (fuel : Nat) (tagName : String) (e : XElem) : List XElem :=
  (descendants fuel e).filter (fun d => d.tag = tagName)

/-- `XMLProcessor.get_child_element_text` (xml_processor.py:115-129) on a
namespace-free document: the stripped text of the first direct child with
the tag, else `""` (`get_element_text`, xml_processor.py:111-113). -/
def getChildText (parent : XElem) (childTag : String) : String :=
  match parent.children.find? (fun c => c.tag = childTag) with
  | some c => pyStrip c.text
  | none => ""

/-- The `tag.split('}')[-1] if '}' in tag else tag` namespace strip of
`_extract_parameter_defs` (xml_processor.py:234). -/
def stripNsTag (t : String) : String :=
  .mk (afterLastSep '\x7d' t.toList)

/-- `XMLProcessor._get_param_type_from_tag` (xml_processor.py:260-270). -/
def getParamTypeFromTag (tag : String) : String :=
  let u := pyUpper tag
  if strContainsB u "INTEGER" then "INTEGER"
  else if strContainsB u "BOOLEAN" then "BOOLEAN"
  else if strContainsB u "FLOAT" then "FLOAT"
  else if strContainsB u "ENUMERATION" then "ENUMERATION"
  else if strContainsB u "FUNCTION-NAME" then "FUNCTION_NAME"
  else if strContainsB u "REFERENCE" then "REFERENCE"
  else if strContainsB u "TEXTUAL" then "STRING"
  else "STRING"

/-- A flat parameter record as produced by `_extract_parameter_defs`
(xml_processor.py:245-253); `dflt` is the Python `'default'` key. -/
structure PParam where
  name : String
  path : String
  container_path : String
  ptype : String
  dflt : String
  description : String
  source : String
deriving DecidableEq

/-- A flat container record as produced by `extract_structure` /
`_recursive_extract` (xml_processor.py:163-170, 207-215).  The module
records of the source carry no `description` key; the model stores `""`
for them. -/
structure PContainer where
  name : String
  path : String
  ctype : String
  description : String
  parent_path : Option String
  children : List String
  parameters : List (String × PParam)
deriving DecidableEq

/-- The pair of flat maps threaded through the walker. -/
abbrev XPMaps := List (String × PContainer) × List (String × PParam)

/-- `XMLProcessor._extract_parameter_defs` (xml_processor.py:229-258): scan
the direct children of a `PARAMETERS` element, keep those whose stripped
tag contains `PARAM-DEF` or `REFERENCE-DEF` and that have a `SHORT-NAME`,
and record them both in the global parameter map and in the owning
container's parameter dict. -/
def extractParameterDefs (paramsElement : XElem) (containerPath : String)
    (acc : XPMaps) : XPMaps :=
  paramsElement.children.foldl (fun acc paramDef =>
    let ptag := stripNsTag paramDef.tag
    if strContainsB ptag "PARAM-DEF" || strContainsB ptag "REFERENCE-DEF" then
      let paramName := getChildText paramDef "SHORT-NAME"
      if paramName = "" then acc
      else
        let paramPath := containerPath ++ "/" ++ paramName
        let info : PParam :=
          { name := paramName, path := paramPath
            container_path := containerPath
            ptype := getParamTypeFromTag ptag
            dflt := getChildText paramDef "DEFAULT-VALUE"
            description := getChildText paramDef "DESC"
            source := "xml_def" }
        (acc.1.map (fun pr =>
            if pr.1 = containerPath then
              (pr.1, { pr.2 with
                parameters := dictSet pr.2.parameters paramName info })
            else pr),
          dictSet acc.2 paramPath info)
    else acc) acc

/-- `XMLProcessor._recursive_extract` (xml_processor.py:191-227): for every
container-definition descendant with a `SHORT-NAME`, record it under
`parent_path + "/" + name`, append its name to the parent's child list (a
no-op when the parent is not in the map, as in the source's `in` guard),
extract its `PARAMETERS`, and recurse into its first `SUB-CONTAINERS`
element.  The first fuel bounds the sub-container recursion depth. -/
def recursiveExtract (fuel depthFuel : Nat) (element : XElem)
    (parentPath : String) (acc : XPMaps) : XPMaps :=
  match fuel with
  | 0 => acc
  | Nat.succ fuel =>
    (findElements depthFuel "ECUC-PARAM-CONF-CONTAINER-DEF" element).foldl
      (fun acc containerDef =>
        let containerName := getChildText containerDef "SHORT-NAME"
        let description := getChildText containerDef "DESC"
        if containerName = "" then acc
        else
          let containerPath := parentPath ++ "/" ++ containerName
          let cinfo : PContainer :=
            { name := containerName, path := containerPath
              ctype := "container_definition", description := description
              parent_path := some parentPath, children := []
              parameters := [] }
          let conts := (dictSet acc.1 containerPath cinfo).map (fun pr =>
            if pr.1 = parentPath then
              (pr.1, { pr.2 with
                children := pr.2.children ++ [containerName] })
            else pr)
          let acc2 :=
            match findElements depthFuel "PARAMETERS" containerDef with
            | [] => (conts, acc.2)
            | pe :: _ => extractParameterDefs pe containerPath (conts, acc.2)
          match findElements depthFuel "SUB-CONTAINERS" containerDef with
          | [] => acc2
          | se :: _ => recursiveExtract fuel depthFuel se containerPath acc2)
      acc

/-- `XMLProcessor.extract_structure` (xml_processor.py:137-189): locate
`AR-PACKAGE` elements (falling back to `AR-PACKAGES`), then for each
`ECUC-MODULE-DEF` under an `ELEMENTS` element record the module and walk its
first `CONTAINERS` element.  The package bookkeeping of the source
(`self.packages`) is not part of the returned structure and is omitted. -/
def extractStructure (fuel : Nat) (root : XElem) : XPMaps :=
  let arPackages :=
    match findElements fuel "AR-PACKAGE" root with
    | [] => findElements fuel "AR-PACKAGES" root
    | l => l
  arPackages.foldl (fun acc pkg =>
    (findElements fuel "ELEMENTS" pkg).foldl (fun acc elContainer =>
      (findElements fuel "ECUC-MODULE-DEF" elContainer).foldl
        (fun acc modDef =>
          let moduleName := getChildText modDef "SHORT-NAME"
          if moduleName = "" then acc
          else
            let minfo : PContainer :=
              { name := moduleName, path := moduleName
                ctype := "module_definition", description := ""
                parent_path := none, children := [], parameters := [] }
            let conts := dictSet acc.1 moduleName minfo
            match findElements fuel "CONTAINERS" modDef with
            | [] => (conts, acc.2)
            | ce :: _ => recursiveExtract fuel fuel ce moduleName
                (conts, acc.2))
        acc) acc) ([], [])

/-- A leaf element holding only text. -/
def leafText (tag txt : String) : XElem := .node tag txt []

/-- The definition document of the spec's Scenario A: one module with one
container holding an integer parameter definition (default `"5"`) and a
boolean parameter definition (default `"true"`). -/
def scenarioADoc : XElem :=
  .node "AUTOSAR" "" [
    .node "AR-PACKAGE" "" [
      .node "ELEMENTS" "" [
        .node "ECUC-MODULE-DEF" "" [
          leafText "SHORT-NAME" "Mod",
          .node "CONTAINERS" "" [
            .node "ECUC-PARAM-CONF-CONTAINER-DEF" "" [
              leafText "SHORT-NAME" "Cont",
              .node "PARAMETERS" "" [
                .node "ECUC-INTEGER-PARAM-DEF" "" [
                  leafText "SHORT-NAME" "P1",
                  leafText "DEFAULT-VALUE" "5"],
                .node "ECUC-BOOLEAN-PARAM-DEF" "" [
                  leafText "SHORT-NAME" "P2",
                  leafText "DEFAULT-VALUE" "true"]]]]]]]]

/-! ## Theorems -/

/-! ### Dictionary and list toolkit -/

theorem dictGet_eq_dictFind {α : Type} (m : List (String × α)) (k : String) :
    dictGet m k = (dictFind m k).map Prod.snd := by
  induction m with
  | nil => rfl
  | cons p rest ih =>
    by_cases h : p.1 = k <;> simp [dictGet, dictFind, h, ih]

theorem dictFind_mem {α : Type} {m : List (String × α)} {k : String}
    {p : String × α} (h : dictFind m k = some p) : p ∈ m := by
  induction m with
  | nil => simp [dictFind] at h
  | cons q rest ih =>
    by_cases hq : q.1 = k
    · simp [dictFind, hq] at h
      simp [h.symm]
    · simp [dictFind, hq] at h
      exact List.mem_cons_of_mem _ (ih h)

theorem dictFind_key {α : Type} {m : List (String × α)} {k : String}
    {p : String × α} (h : dictFind m k = some p) : p.1 = k := by
  induction m with
  | nil => simp [dictFind] at h
  | cons q rest ih =>
    by_cases hq : q.1 = k
    · simp [dictFind, hq] at h
      rw [← h]
      exact hq
    · simp [dictFind, hq] at h
      exact ih h

theorem dictGet_map_pair {α β : Type} (g : String × α → β)
    (m : List (String × α)) (k : String) :
    dictGet (m.map (fun p => (p.1, g p))) k = (dictFind m k).map g := by
  induction m with
  | nil => rfl
  | cons p rest ih =>
    by_cases h : p.1 = k
    · simp [dictGet, dictFind, h]
    · simp [dictGet, dictFind, h, ih]

theorem keysOf_map_pair {α β : Type} (g : String × α → β)
    (m : List (String × α)) :
    keysOf (m.map (fun p => (p.1, g p))) = keysOf m := by
  induction m with
  | nil => rfl
  | cons p rest ih =>
    simp only [List.map_cons, keysOf] at ih ⊢
    rw [ih]

theorem dictGet_isSome_iff_mem {α : Type} (m : List (String × α))
    (k : String) : (dictGet m k).isSome ↔ k ∈ keysOf m := by
  induction m with
  | nil => simp [dictGet, keysOf]
  | cons p rest ih =>
    by_cases h : p.1 = k
    · simp [dictGet, keysOf, h]
    · have hne : ¬ k = p.1 := fun he => h he.symm
      simp [dictGet, keysOf, h, hne, ih]

theorem dictGet_dictSet_self {α : Type} (m : List (String × α)) (k : String)
    (v : α) : dictGet (dictSet m k v) k = some v := by
  induction m with
  | nil => simp [dictSet, dictGet]
  | cons p rest ih =>
    by_cases h : p.1 = k <;> simp [dictSet, dictGet, h, ih]

theorem dictGet_dictSet_ne {α : Type} (m : List (String × α))
    (k k' : String) (v : α) (h : k' ≠ k) :
    dictGet (dictSet m k v) k' = dictGet m k' := by
  induction m with
  | nil =>
    have hne : ¬ k = k' := fun he => h he.symm
    simp [dictSet, dictGet, hne]
  | cons p rest ih =>
    by_cases hp : p.1 = k
    · subst hp
      have hne : ¬ p.1 = k' := fun he => h he.symm
      simp [dictSet, dictGet, hne]
    · simp [dictSet, dictGet, hp, ih]

theorem keysOf_dictSet_of_mem {α : Type} (m : List (String × α)) (k : String)
    (v : α) (h : k ∈ keysOf m) : keysOf (dictSet m k v) = keysOf m := by
  induction m with
  | nil => simp [keysOf] at h
  | cons p rest ih =>
    by_cases hp : p.1 = k
    · simp [dictSet, keysOf, hp]
    · have hk : k ∈ keysOf rest := by
        rcases List.mem_cons.mp h with he | he
        · exact absurd he.symm hp
        · exact he
      have := ih hk
      simp [dictSet, keysOf, hp] at this ⊢
      exact this

theorem keysOf_dictSet_of_not_mem {α : Type} (m : List (String × α))
    (k : String) (v : α) (h : ¬ k ∈ keysOf m) :
    keysOf (dictSet m k v) = keysOf m ++ [k] := by
  induction m with
  | nil => simp [dictSet, keysOf]
  | cons p rest ih =>
    have hp : p.1 ≠ k := by
      intro he
      exact h (by simp [keysOf, he])
    have hr : ¬ k ∈ keysOf rest := by
      intro hk
      exact h (List.mem_cons_of_mem _ hk)
    have := ih hr
    simp [dictSet, keysOf, hp] at this ⊢
    exact this

theorem nodup_keysOf_dictSet {α : Type} (m : List (String × α)) (k : String)
    (v : α) (h : (keysOf m).Nodup) : (keysOf (dictSet m k v)).Nodup := by
  by_cases hk : k ∈ keysOf m
  · rw [keysOf_dictSet_of_mem m k v hk]
    exact h
  · rw [keysOf_dictSet_of_not_mem m k v hk]
    simpa [List.nodup_append] using ⟨h, hk⟩

theorem modifyIdx_length {α : Type} (l : List α) (i : Nat) (f : α → α) :
    (modifyIdx l i f).length = l.length := by
  induction l generalizing i with
  | nil => rfl
  | cons a rest ih =>
    cases i with
    | zero => rfl
    | succ n => simp [modifyIdx, ih]

theorem modifyIdx_map_invariant {α β : Type} (l : List α) (i : Nat)
    (f : α → α) (g : α → β) (hg : ∀ a, g (f a) = g a) :
    (modifyIdx l i f).map g = l.map g := by
  induction l generalizing i with
  | nil => rfl
  | cons a rest ih =>
    cases i with
    | zero => simp [modifyIdx, hg]
    | succ n => simp [modifyIdx, ih]

theorem getElem?_modifyIdx_ne {α : Type} (l : List α) (i j : Nat)
    (f : α → α) (h : j ≠ i) : (modifyIdx l i f)[j]? = l[j]? := by
  induction l generalizing i j with
  | nil => rfl
  | cons a rest ih =>
    cases i with
    | zero =>
      cases j with
      | zero => exact absurd rfl h
      | succ m => simp [modifyIdx]
    | succ n =>
      cases j with
      | zero => simp [modifyIdx]
      | succ m =>
        simp only [modifyIdx, List.getElem?_cons_succ]
        exact ih n m (fun he => h (by rw [he]))

theorem getElem?_modifyIdx_self {α : Type} (l : List α) (i : Nat)
    (f : α → α) : (modifyIdx l i f)[i]? = (l[i]?).map f := by
  induction l generalizing i with
  | nil => rfl
  | cons a rest ih =>
    cases i with
    | zero => simp [modifyIdx]
    | succ n => simpa [modifyIdx] using ih n

theorem getD_modifyIdx_ne {α : Type} (l : List α) (i j : Nat) (f : α → α)
    (d : α) (h : j ≠ i) : (modifyIdx l i f).getD j d = l.getD j d := by
  rw [List.getD_eq_getElem?_getD, List.getD_eq_getElem?_getD,
    getElem?_modifyIdx_ne l i j f h]

theorem getD_modifyIdx_self {α : Type} (l : List α) (i : Nat) (f : α → α)
    (d : α) (h : i < l.length) :
    (modifyIdx l i f).getD i d = f (l.getD i d) := by
  rw [List.getD_eq_getElem?_getD, List.getD_eq_getElem?_getD,
    getElem?_modifyIdx_self l i f, List.getElem?_eq_getElem h]
  rfl

theorem mem_modifyIdx {α : Type} {l : List α} {i : Nat} {f : α → α}
    {b : α} (h : b ∈ modifyIdx l i f) : b ∈ l ∨ ∃ a ∈ l, b = f a := by
  induction l generalizing i with
  | nil => simp [modifyIdx] at h
  | cons a rest ih =>
    cases i with
    | zero =>
      rcases List.mem_cons.mp h with he | he
      · exact Or.inr ⟨a, List.mem_cons_self a rest, he⟩
      · exact Or.inl (List.mem_cons_of_mem _ he)
    | succ n =>
      rcases List.mem_cons.mp h with he | he
      · exact Or.inl (by simp [he])
      · rcases ih he with hm | ⟨x, hx, hb⟩
        · exact Or.inl (List.mem_cons_of_mem _ hm)
        · exact Or.inr ⟨x, List.mem_cons_of_mem _ hx, hb⟩

/-! ### Shape lemmas for the lifecycle operations -/

theorem renumberFrom_map_id (cname : String) (l : List Instance) :
    (renumberFrom cname l).map Instance.id = List.range l.length := by
  unfold renumberFrom
  rw [List.map_map]
  exact List.enum_map_fst l

theorem renumberFrom_map_vars (cname : String) (l : List Instance) :
    (renumberFrom cname l).map Instance.vars = l.map Instance.vars := by
  unfold renumberFrom
  rw [List.map_map]
  show l.enum.map (Instance.vars ∘ Prod.snd) = _
  rw [← List.map_map, List.enum_map_snd]

theorem renumberFrom_length (cname : String) (l : List Instance) :
    (renumberFrom cname l).length = l.length := by
  simp [renumberFrom]

theorem mem_renumberFrom {cname : String} {l : List Instance} {b : Instance}
    (h : b ∈ renumberFrom cname l) : ∃ a ∈ l, b.vars = a.vars := by
  unfold renumberFrom at h
  rcases List.mem_map.mp h with ⟨p, hp, rfl⟩
  rw [List.enum_eq_zip_range] at hp
  exact ⟨p.2, (List.of_mem_zip hp).2, rfl⟩

theorem createInstance_ok {c : Container} (h : c.atLimit = false) :
    c.createInstance = .ok (c.instances.length,
      { c with
        vars := c.vars.map (fun p =>
          (p.1, seedValues c.instances.length p.2))
        instances := c.instances ++
          [⟨c.instances.length, c.name ++ "_" ++ toString c.instances.length,
            c.vars.map (fun p => (p.1, p.2.definition.getDefault))⟩] }) := by
  simp only [Container.createInstance, h]
  rfl

theorem deleteInstance_lt {c : Container} {instId : Nat}
    (h : instId < c.instances.length) :
    c.deleteInstance instId = (true,
      { c with
        vars := c.vars.map (fun p =>
          (p.1, { p.2 with values :=
            (if instId < p.2.values.length then p.2.values.eraseIdx instId
             else p.2.values) }))
        instances := renumberFrom c.name (c.instances.eraseIdx instId)
        current_instance :=
          (if (renumberFrom c.name (c.instances.eraseIdx instId)).length
              ≤ c.current_instance
           then (renumberFrom c.name (c.instances.eraseIdx instId)).length - 1
           else c.current_instance) }) := by
  simp only [Container.deleteInstance, if_pos h]

theorem setVariableValue_some {c : Container} (varName value : String)
    (iid : Option Nat) {vi : VarInfo}
    (hv : dictGet c.vars varName = some vi)
    (hlt : iid.getD c.current_instance < c.instances.length) :
    c.setVariableValue varName value iid = (true,
      { c with
        vars := c.vars.map (fun p =>
          if p.1 = varName then
            (p.1, { p.2 with values :=
              ((seedValues (iid.getD c.current_instance) p.2).values.set
                (iid.getD c.current_instance) value) })
          else p)
        instances := modifyIdx c.instances (iid.getD c.current_instance)
          (fun inst =>
            { inst with vars := dictSet inst.vars varName value }) }) := by
  simp only [Container.setVariableValue, hv, Nat.not_le.mpr hlt, if_false]

theorem setVariableValue_unchanged_of_none {c : Container}
    (varName value : String) (iid : Option Nat)
    (hv : dictGet c.vars varName = none) :
    c.setVariableValue varName value iid = (false, c) := by
  simp only [Container.setVariableValue, hv]

theorem setVariableValue_unchanged_of_ge {c : Container}
    (varName value : String) (iid : Option Nat) {vi : VarInfo}
    (hv : dictGet c.vars varName = some vi)
    (hge : c.instances.length ≤ iid.getD c.current_instance) :
    c.setVariableValue varName value iid = (false, c) := by
  simp only [Container.setVariableValue, hv, if_pos hge]

/-! ### Preservation of well-formedness -/

theorem wf_createInstance {c : Container} {r : Nat × Container}
    (hwf : Wf c) (h : c.createInstance = .ok r) : Wf r.2 := by
  obtain ⟨hd, hcov, hkeys, hnd⟩ := hwf
  have hl : c.atLimit = false := by
    by_contra hb
    have hl2 : c.atLimit = true := by simpa using hb
    simp only [Container.createInstance, hl2, if_true] at h
    exact Except.noConfusion h
  rw [createInstance_ok hl] at h
  injection h with h2
  subst h2
  show Wf { c with
    vars := c.vars.map (fun p => (p.1, seedValues c.instances.length p.2))
    instances := c.instances ++
      [⟨c.instances.length, c.name ++ "_" ++ toString c.instances.length,
        c.vars.map (fun p => (p.1, p.2.definition.getDefault))⟩] }
  refine ⟨?_, ?_, ?_, ?_⟩
  · dsimp only [idsDense]
    simp only [List.map_append, List.map_cons, List.map_nil,
      List.length_append, List.length_cons, List.length_nil]
    rw [hd]
    rw [show c.instances.length + (0 + 1) = c.instances.length + 1 by omega,
      List.range_succ]
  · intro pr hpr
    rcases List.mem_map.mp hpr with ⟨q, hq, rfl⟩
    have := hcov q hq
    simp only [seedValues, List.length_append, List.length_replicate,
      List.length_cons, List.length_nil]
    omega
  · intro inst hinst
    have hkeq : keysOf (c.vars.map (fun p =>
        (p.1, seedValues c.instances.length p.2))) = keysOf c.vars :=
      keysOf_map_pair _ c.vars
    rcases List.mem_append.mp hinst with hm | hm
    · rw [hkeq]
      exact hkeys inst hm
    · rcases List.mem_singleton.mp hm with rfl
      rw [hkeq]
      exact keysOf_map_pair _ c.vars
  · rw [keysOf_map_pair (fun p => seedValues c.instances.length p.2) c.vars]
    exact hnd

theorem wf_deleteInstance {c : Container} (hwf : Wf c) (instId : Nat) :
    Wf (c.deleteInstance instId).2 := by
  obtain ⟨hd, hcov, hkeys, hnd⟩ := hwf
  by_cases h : instId < c.instances.length
  · rw [deleteInstance_lt h]
    have hlen : (c.instances.eraseIdx instId).length
        = c.instances.length - 1 := List.length_eraseIdx_of_lt h
    refine ⟨?_, ?_, ?_, ?_⟩
    · show (renumberFrom c.name (c.instances.eraseIdx instId)).map Instance.id
        = List.range (renumberFrom c.name
            (c.instances.eraseIdx instId)).length
      rw [renumberFrom_map_id, renumberFrom_length]
    · intro pr hpr
      rcases List.mem_map.mp hpr with ⟨q, hq, rfl⟩
      have := hcov q hq
      show (renumberFrom c.name (c.instances.eraseIdx instId)).length ≤ _
      rw [renumberFrom_length, hlen]
      by_cases hv : instId < q.2.values.length
      · simp only [hv, if_true]
        rw [List.length_eraseIdx_of_lt hv]
        omega
      · simp only [hv, if_false]
        omega
    · intro inst hinst
      rcases mem_renumberFrom hinst with ⟨a, ha, hveq⟩
      have ham : a ∈ c.instances :=
        (List.eraseIdx_sublist c.instances instId).mem ha
      have hkeq : keysOf (c.vars.map (fun p =>
          (p.1, { p.2 with values :=
            (if instId < p.2.values.length then p.2.values.eraseIdx instId
             else p.2.values) }))) = keysOf c.vars :=
        keysOf_map_pair _ c.vars
      rw [hveq, hkeq]
      exact hkeys a ham
    · have hkeq : keysOf (c.vars.map (fun p =>
          (p.1, { p.2 with values :=
            (if instId < p.2.values.length then p.2.values.eraseIdx instId
             else p.2.values) }))) = keysOf c.vars :=
        keysOf_map_pair _ c.vars
      rw [hkeq]
      exact hnd
  · simp only [Container.deleteInstance, if_neg h]
    exact ⟨hd, hcov, hkeys, hnd⟩

theorem wf_setVariableValue {c : Container} (hwf : Wf c)
    (varName value : String) (iid : Option Nat) :
    Wf (c.setVariableValue varName value iid).2 := by
  obtain ⟨hd, hcov, hkeys, hnd⟩ := hwf
  rcases hv : dictGet c.vars varName with _ | vi
  · rw [setVariableValue_unchanged_of_none varName value iid hv]
    exact ⟨hd, hcov, hkeys, hnd⟩
  · by_cases hlt : iid.getD c.current_instance < c.instances.length
    · rw [setVariableValue_some varName value iid hv hlt]
      have hmapeq : (fun p : String × VarInfo =>
          if p.1 = varName then
            (p.1, { p.2 with values :=
              ((seedValues (iid.getD c.current_instance) p.2).values.set
                (iid.getD c.current_instance) value) })
          else p)
          = (fun p : String × VarInfo => (p.1,
            if p.1 = varName then
              { p.2 with values :=
                ((seedValues (iid.getD c.current_instance) p.2).values.set
                  (iid.getD c.current_instance) value) }
            else p.2)) := by
        funext p
        by_cases hb : p.1 = varName <;> simp [hb]
      have hkeq : keysOf (c.vars.map (fun p : String × VarInfo =>
          if p.1 = varName then
            (p.1, { p.2 with values :=
              ((seedValues (iid.getD c.current_instance) p.2).values.set
                (iid.getD c.current_instance) value) })
          else p)) = keysOf c.vars := by
        rw [hmapeq]
        exact keysOf_map_pair _ c.vars
      refine ⟨?_, ?_, ?_, ?_⟩
      · dsimp only [idsDense]
        rw [modifyIdx_map_invariant c.instances
            (iid.getD c.current_instance)
            (fun inst => { inst with vars := dictSet inst.vars varName value })
            Instance.id (fun _ => rfl),
          modifyIdx_length]
        exact hd
      · intro pr hpr
        rcases List.mem_map.mp hpr with ⟨q, hq, rfl⟩
        have := hcov q hq
        show (modifyIdx c.instances _ _).length ≤ _
        rw [modifyIdx_length]
        by_cases hb : q.1 = varName
        · simp only [hb, if_true, List.length_set, seedValues,
            List.length_append, List.length_replicate]
          omega
        · simp only [hb, if_false]
          exact this
      · intro inst hinst
        rw [hkeq]
        rcases mem_modifyIdx hinst with hm | ⟨a, ha, rfl⟩
        · exact hkeys inst hm
        · show keysOf (dictSet a.vars varName value) = keysOf c.vars
          have hmem : varName ∈ keysOf c.vars :=
            (dictGet_isSome_iff_mem c.vars varName).mp (by rw [hv]; rfl)
          rw [keysOf_dictSet_of_mem a.vars varName value
            ((hkeys a ha) ▸ hmem)]
          exact hkeys a ha
      · rw [hkeq]
        exact hnd
    · rw [setVariableValue_unchanged_of_ge varName value iid hv
        (Nat.not_lt.mp hlt)]
      exact ⟨hd, hcov, hkeys, hnd⟩

theorem wf_applyOp {c : Container} (hwf : Wf c) (op : InstOp) :
    Wf (applyOp c op) := by
  cases op with
  | create =>
    rcases h : c.createInstance with e | r
    · simp only [applyOp, h]
      exact hwf
    · simp only [applyOp, h]
      exact wf_createInstance hwf h
  | delete i => exact wf_deleteInstance hwf i
  | setVar v x i => exact wf_setVariableValue hwf v x i

theorem wf_applyOps {c : Container} (hwf : Wf c) (ops : List InstOp) :
    Wf (applyOps c ops) := by
  induction ops generalizing c with
  | nil => exact hwf
  | cons op rest ih => exact ih (wf_applyOp hwf op)

theorem foldl_addVariable_instances (defs : List (String × VarDef))
    (c : Container) :
    (defs.foldl (fun c p => c.addVariable p.1 p.2) c).instances
      = c.instances := by
  induction defs generalizing c with
  | nil => rfl
  | cons d rest ih => simpa [Container.addVariable] using ih _

theorem foldl_addVariable_nodup (defs : List (String × VarDef))
    (c : Container) (h : (keysOf c.vars).Nodup) :
    (keysOf (defs.foldl (fun c p => c.addVariable p.1 p.2) c).vars).Nodup := by
  induction defs generalizing c with
  | nil => exact h
  | cons d rest ih =>
    exact ih _ (nodup_keysOf_dictSet c.vars d.1 _ h)

theorem wf_mkContainer (name : String) (m : Mult)
    (defs : List (String × VarDef)) : Wf (mkContainer name m defs) := by
  have h1 : (mkContainer name m defs).instances = [] :=
    foldl_addVariable_instances defs _
  refine ⟨?_, ?_, ?_, ?_⟩
  · show (mkContainer name m defs).instances.map Instance.id = _
    rw [h1]
    rfl
  · intro pr _
    rw [h1]
    exact Nat.zero_le _
  · intro inst hinst
    rw [h1] at hinst
    exact absurd hinst (List.not_mem_nil inst)
  · exact foldl_addVariable_nodup defs _ List.nodup_nil

theorem deleteSpec_of_wf {c : Container} (hwf : Wf c) {instId : Nat}
    (h : instId < c.instances.length) : deleteSpec c instId := by
  obtain ⟨hd, hcov, hkeys, hnd⟩ := hwf
  have hsh := deleteInstance_lt h
  refine ⟨?_, ?_, ?_, ?_⟩
  · rw [hsh]
  · rw [hsh]
    exact renumberFrom_map_vars _ _
  · rw [hsh]
    show (renumberFrom c.name (c.instances.eraseIdx instId)).map Instance.id
      = _
    rw [renumberFrom_map_id, List.length_eraseIdx_of_lt h]
  · rw [hsh]
    show (c.vars.map _).map _ = _
    rw [List.map_map]
    apply List.map_congr_left
    intro q hq
    have hc := hcov q hq
    have hcond : instId < q.2.values.length := lt_of_lt_of_le h hc
    simp [hcond]

/-! ### Claim C2 -/

/-- C2: starting from a fresh container, after every finite sequence of
lifecycle operations the instance record ids are exactly the dense range
`0..count-1`; and every in-range deletion succeeds, keeps the survivors'
data in relative order while renumbering their ids densely, and removes the
deleted index from every variable's value sequence (`deleteSpec`). -/
theorem c2_dense_ids_and_renumbering (name : String) (m : Mult)
    (defs : List (String × VarDef)) (ops : List InstOp) (instId : Nat)
    (h : instId < (applyOps (mkContainer name m defs) ops).instances.length) :
    idsDense (applyOps (mkContainer name m defs) ops)
    ∧ deleteSpec (applyOps (mkContainer name m defs) ops) instId := by
  have hwf := wf_applyOps (wf_mkContainer name m defs) ops
  exact ⟨hwf.1, deleteSpec_of_wf hwf h⟩

/-- Witness for C2: a three-instance container built by three creations
(Scenario C's shape), with instance 0 then deleted. -/
theorem c2_witness :
    0 < (applyOps (mkContainer "W" .star [("v", { defaultValue := some "d" })])
        [.create, .create, .create]).instances.length
    ∧ (idsDense (applyOps
        (mkContainer "W" .star [("v", { defaultValue := some "d" })])
        [.create, .create, .create])
      ∧ deleteSpec (applyOps
        (mkContainer "W" .star [("v", { defaultValue := some "d" })])
        [.create, .create, .create]) 0) :=
  ⟨by decide,
    c2_dense_ids_and_renumbering "W" .star
      [("v", { defaultValue := some "d" })] [.create, .create, .create] 0
      (by decide)⟩

/-! ### Claim C5 -/

theorem resetContainer_ok_props {c : Container}
    (h : c.multiplicity ≠ Mult.num 0) :
    ∃ c', resetContainer c = .ok c'
      ∧ c'.instances.length = 1
      ∧ ∀ vname vi, dictGet c'.vars vname = some vi →
          c'.getVariableValue vname none = some vi.definition.getDefault := by
  have hl : ({ c with instances := [], current_instance := 0 }
      : Container).atLimit = false := by
    unfold Container.atLimit
    rcases hm : c.multiplicity with _ | n
    · rfl
    · rcases n with _ | k
      · exact absurd hm h
      · simp
  unfold resetContainer
  rw [createInstance_ok hl]
  dsimp only [Except.map]
  refine ⟨_, rfl, rfl, ?_⟩
  intro vname vi hvi
  dsimp only [List.length_nil, List.nil_append] at hvi ⊢
  have hv1 : dictGet (c.vars.map (fun p => (p.1, seedValues 0 p.2))) vname
      = (dictFind c.vars vname).map (fun p => seedValues 0 p.2) :=
    dictGet_map_pair _ c.vars vname
  have hv2 : dictGet (c.vars.map (fun p => (p.1, p.2.definition.getDefault)))
      vname = (dictFind c.vars vname).map
        (fun p => p.2.definition.getDefault) :=
    dictGet_map_pair _ c.vars vname
  rcases hq : dictFind c.vars vname with _ | q
  · rw [hv1, hq] at hvi
    exact absurd hvi (by simp)
  · rw [hv1, hq] at hvi
    simp only [Option.map_some'] at hvi
    unfold Container.getVariableValue
    simp only [hv1, hq, Option.map_some', Option.getD_none, Option.getD_some]
    rw [if_neg (by simp)]
    have h0 : ([(⟨0, c.name ++ "_" ++ toString 0,
        c.vars.map (fun p => (p.1, p.2.definition.getDefault))⟩
          : Instance)].getD 0 dummyInstance)
        = (⟨0, c.name ++ "_" ++ toString 0,
            c.vars.map (fun p => (p.1, p.2.definition.getDefault))⟩
          : Instance) := rfl
    rw [h0]
    dsimp only
    rw [hv2, hq]
    simp only [Option.map_some', Option.getD_some]
    rw [← Option.some.inj hvi]
    rfl

theorem resetAll_ok {l : List (String × Container)}
    (h : ∀ pr ∈ l, (Prod.snd pr).multiplicity ≠ Mult.num 0) :
    ∃ cs, (l.mapM (fun pr => do
        let c' ← resetContainer pr.2
        pure (pr.1, c')) : Except String (List (String × Container)))
        = .ok cs
      ∧ ∀ pr ∈ cs, (Prod.snd pr).instances.length = 1
          ∧ ∀ vname vi, dictGet (Prod.snd pr).vars vname = some vi →
              (Prod.snd pr).getVariableValue vname none
                = some vi.definition.getDefault := by
  induction l with
  | nil => exact ⟨[], rfl, by simp⟩
  | cons p rest ih =>
    obtain ⟨c', hc', h1, h2⟩ :=
      resetContainer_ok_props (h p (List.mem_cons_self p rest))
    obtain ⟨cs, hcs, hprops⟩ :=
      ih (fun pr hpr => h pr (List.mem_cons_of_mem _ hpr))
    refine ⟨(p.1, c') :: cs, ?_, ?_⟩
    · rw [List.mapM_cons, hc', hcs]
      rfl
    · intro pr hpr
      rcases List.mem_cons.mp hpr with rfl | hm
      · exact ⟨h1, h2⟩
      · exact hprops pr hm

/-- C5: after `reset_to_defaults` — from any processor state whose
containers admit at least one instance (every reachable multiplicity does) —
every container holds exactly one instance, every variable of it reads back
as its definition's default, the change history is empty and the
modification count is zero. -/
theorem c5_reset_to_defaults (p : Proc)
    (h : ∀ pr ∈ p.all_containers, (Prod.snd pr).multiplicity ≠ Mult.num 0) :
    ∃ p', p.resetToDefaults = .ok p'
      ∧ p'.configuration_history = []
      ∧ p'.modification_count = 0
      ∧ ∀ pr ∈ p'.all_containers,
          (Prod.snd pr).instances.length = 1
          ∧ ∀ vname vi, dictGet (Prod.snd pr).vars vname = some vi →
              (Prod.snd pr).getVariableValue vname none
                = some vi.definition.getDefault := by
  obtain ⟨cs, hcs, hprops⟩ := resetAll_ok h
  refine ⟨{ all_containers := cs, configuration_history := []
            modification_count := 0 }, ?_, rfl, rfl, hprops⟩
  unfold Proc.resetToDefaults
  rw [hcs]
  rfl

/-- Witness for C5: a processor holding one mutated container, a nonempty
history and a nonzero modification count. -/
theorem c5_witness :
    (∀ pr ∈ (Proc.mk
        [("K", applyOps (mkContainer "K" (.num 2)
          [("v", { defaultValue := some "8" })])
          [.create, .setVar "v" "9" (some 0)])]
        [{ action := "modify_variable", container_path := "K" }]
        5).all_containers,
      (Prod.snd pr).multiplicity ≠ Mult.num 0)
    ∧ ∃ p', (Proc.mk
        [("K", applyOps (mkContainer "K" (.num 2)
          [("v", { defaultValue := some "8" })])
          [.create, .setVar "v" "9" (some 0)])]
        [{ action := "modify_variable", container_path := "K" }]
        5).resetToDefaults = .ok p'
      ∧ p'.configuration_history = []
      ∧ p'.modification_count = 0
      ∧ ∀ pr ∈ p'.all_containers,
          (Prod.snd pr).instances.length = 1
          ∧ ∀ vname vi, dictGet (Prod.snd pr).vars vname = some vi →
              (Prod.snd pr).getVariableValue vname none
                = some vi.definition.getDefault :=
  ⟨by decide, c5_reset_to_defaults _ (by decide)⟩

/-! ### Claim C4 -/

theorem dictFind_map_pair {α β : Type} (g : String × α → β)
    (m : List (String × α)) (k : String) :
    dictFind (m.map (fun p => (p.1, g p))) k
      = (dictFind m k).map (fun p => (p.1, g p)) := by
  induction m with
  | nil => rfl
  | cons p rest ih =>
    by_cases h : p.1 = k
    · simp [dictFind, h]
    · simp [dictFind, h, ih]

theorem dictGet_mem_pair {α : Type} {m : List (String × α)} {k : String}
    {v : α} (h : dictGet m k = some v) : (k, v) ∈ m := by
  rw [dictGet_eq_dictFind] at h
  rcases hq : dictFind m k with _ | q
  · rw [hq] at h
    exact absurd h (by simp)
  · rw [hq] at h
    simp only [Option.map_some'] at h
    have h1 := dictFind_key hq
    have h2 := dictFind_mem hq
    have hv2 : q.2 = v := Option.some.inj h
    have he : (k, v) = q := by
      rw [← h1, ← hv2]
    rw [he]
    exact h2

theorem setVariableValue_false {c : Container} {varName value : String}
    {iid : Option Nat} (h : (c.setVariableValue varName value iid).1 = false) :
    (c.setVariableValue varName value iid).2 = c := by
  rcases hv : dictGet c.vars varName with _ | vi
  · rw [setVariableValue_unchanged_of_none varName value iid hv]
  · by_cases hlt : iid.getD c.current_instance < c.instances.length
    · rw [setVariableValue_some varName value iid hv hlt] at h
      exact absurd h (by simp)
    · rw [setVariableValue_unchanged_of_ge varName value iid hv
        (Nat.not_lt.mp hlt)]

/-- The value `get_variable_value` computes at an in-range instance id, in
terms of the first matching variable entry and the instance's dict. -/
theorem getVariableValue_formula (c : Container) (w : String) (dstId : Nat)
    (hdst : dstId < c.instances.length) :
    c.getVariableValue w (some dstId)
      = (dictFind c.vars w).map (fun q =>
          (dictGet (c.instances.getD dstId dummyInstance).vars w).getD
            q.2.definition.getDefault) := by
  unfold Container.getVariableValue
  rw [dictGet_eq_dictFind]
  rcases hq : dictFind c.vars w with _ | q
  · rfl
  · simp only [Option.map_some', Option.getD_some]
    rw [if_neg (Nat.not_le.mpr hdst)]

/-- Frame property of `set_variable_value`: writing any variable of any
other instance does not change what any variable of instance `dstId` reads
back as. -/
theorem set_frame (c : Container) (varName value : String)
    (srcId dstId : Nat) (hne : dstId ≠ srcId)
    (hdst : dstId < c.instances.length) (w : String) :
    ((c.setVariableValue varName value (some srcId)).2).getVariableValue w
      (some dstId) = c.getVariableValue w (some dstId) := by
  rcases hv : dictGet c.vars varName with _ | vi
  · rw [setVariableValue_unchanged_of_none varName value (some srcId) hv]
  · by_cases hlt : (some srcId : Option Nat).getD c.current_instance
        < c.instances.length
    · rw [setVariableValue_some varName value (some srcId) hv hlt]
      have hgd : (some srcId : Option Nat).getD c.current_instance
          = srcId := rfl
      rw [hgd] at hlt ⊢
      have hmapeq : (fun p : String × VarInfo =>
          if p.1 = varName then
            (p.1, { p.2 with values :=
              ((seedValues srcId p.2).values.set srcId value) })
          else p)
          = (fun p : String × VarInfo => (p.1,
            if p.1 = varName then
              { p.2 with values :=
                ((seedValues srcId p.2).values.set srcId value) }
            else p.2)) := by
        funext p
        by_cases hb : p.1 = varName <;> simp [hb]
      have hlen2 : (modifyIdx c.instances srcId (fun inst =>
          { inst with vars := dictSet inst.vars varName value })).length
          = c.instances.length := modifyIdx_length _ _ _
      rw [getVariableValue_formula _ w dstId (by rw [hlen2]; exact hdst),
        getVariableValue_formula c w dstId hdst]
      dsimp only
      rw [hmapeq, dictFind_map_pair]
      rw [getD_modifyIdx_ne c.instances srcId dstId _ dummyInstance hne]
      rcases hq : dictFind c.vars w with _ | q
      · rfl
      · simp only [Option.map_some']
        by_cases hb : q.1 = varName <;> simp [hb]
    · rw [setVariableValue_unchanged_of_ge varName value (some srcId) hv
        (Nat.not_lt.mp hlt)]

/-- Effect of the `copy_instance` per-variable loop: it preserves the
instance count and every variable's definition, rewrites the target
instance's dict entry for every copied key to the copied value, and leaves
its other keys alone. -/
theorem copyVars_props (srcVars : List (String × String)) (c : Container)
    (tgt : Nat) (hkeys : ∀ pv ∈ srcVars, pv.1 ∈ keysOf c.vars)
    (hnd : (srcVars.map Prod.fst).Nodup)
    (htgt : tgt < c.instances.length) :
    (copyVars c srcVars tgt).instances.length = c.instances.length
    ∧ (∀ w, (dictFind (copyVars c srcVars tgt).vars w).map
        (fun q => q.2.definition)
        = (dictFind c.vars w).map (fun q => q.2.definition))
    ∧ (∀ pv ∈ srcVars,
        dictGet ((copyVars c srcVars tgt).instances.getD tgt
          dummyInstance).vars pv.1 = some pv.2)
    ∧ (∀ k, ¬ k ∈ srcVars.map Prod.fst →
        dictGet ((copyVars c srcVars tgt).instances.getD tgt
          dummyInstance).vars k
          = dictGet (c.instances.getD tgt dummyInstance).vars k) := by
  induction srcVars generalizing c with
  | nil =>
    exact ⟨rfl, fun w => rfl, by simp, fun k _ => rfl⟩
  | cons pv rest ih =>
    have hmem : pv.1 ∈ keysOf c.vars := hkeys pv (List.mem_cons_self pv rest)
    obtain ⟨vi, hvi⟩ := Option.isSome_iff_exists.mp
      ((dictGet_isSome_iff_mem c.vars pv.1).mpr hmem)
    have hlt : (some tgt : Option Nat).getD c.current_instance
        < c.instances.length := htgt
    have hse := setVariableValue_some pv.1 pv.2 (some tgt) hvi hlt
    have hgd : (some tgt : Option Nat).getD c.current_instance = tgt := rfl
    rw [hgd] at hse
    have hunfold : copyVars c (pv :: rest) tgt
        = copyVars ((c.setVariableValue pv.1 pv.2 (some tgt)).2) rest tgt :=
      rfl
    have hmapeq : (fun p : String × VarInfo =>
        if p.1 = pv.1 then
          (p.1, { p.2 with values :=
            ((seedValues tgt p.2).values.set tgt pv.2) })
        else p)
        = (fun p : String × VarInfo => (p.1,
          if p.1 = pv.1 then
            { p.2 with values := ((seedValues tgt p.2).values.set tgt pv.2) }
          else p.2)) := by
      funext p
      by_cases hb : p.1 = pv.1 <;> simp [hb]
    have hc1len : ((c.setVariableValue pv.1 pv.2 (some tgt)).2).instances.length
        = c.instances.length := by
      rw [hse]
      exact modifyIdx_length _ _ _
    have hc1find : ∀ w,
        (dictFind ((c.setVariableValue pv.1 pv.2 (some tgt)).2).vars w).map
          (fun q => q.2.definition)
        = (dictFind c.vars w).map (fun q => q.2.definition) := by
      intro w
      rw [hse]
      dsimp only
      rw [hmapeq, dictFind_map_pair]
      rcases hq : dictFind c.vars w with _ | q
      · rfl
      · simp only [Option.map_some']
        by_cases hb : q.1 = pv.1 <;> simp [hb]
    have hc1keys : keysOf ((c.setVariableValue pv.1 pv.2 (some tgt)).2).vars
        = keysOf c.vars := by
      rw [hse]
      dsimp only
      rw [hmapeq]
      exact keysOf_map_pair _ c.vars
    have hc1tgt : (((c.setVariableValue pv.1 pv.2 (some tgt)).2).instances.getD
        tgt dummyInstance).vars
        = dictSet ((c.instances.getD tgt dummyInstance).vars) pv.1 pv.2 := by
      rw [hse]
      dsimp only
      rw [getD_modifyIdx_self c.instances tgt _ dummyInstance htgt]
    obtain ⟨ih1, ih2, ih3, ih4⟩ := ih
      ((c.setVariableValue pv.1 pv.2 (some tgt)).2)
      (fun pr hpr => by
        rw [hc1keys]
        exact hkeys pr (List.mem_cons_of_mem _ hpr))
      (List.Nodup.of_cons hnd)
      (by rw [hc1len]; exact htgt)
    have hheadnot : ¬ pv.1 ∈ rest.map Prod.fst := by
      have := List.nodup_cons.mp hnd
      exact this.1
    refine ⟨?_, ?_, ?_, ?_⟩
    · rw [hunfold, ih1, hc1len]
    · intro w
      rw [hunfold, ih2 w, hc1find w]
    · intro pv' hpv'
      rcases List.mem_cons.mp hpv' with rfl | hm
      · rw [hunfold, ih4 pv'.1 hheadnot, hc1tgt]
        exact dictGet_dictSet_self _ _ _
      · rw [hunfold]
        exact ih3 pv' hm
    · intro k hk
      have hk1 : ¬ k ∈ rest.map Prod.fst := by
        intro hin
        exact hk (by simp [hin])
      have hk2 : k ≠ pv.1 := by
        intro he
        exact hk (by simp [he])
      rw [hunfold, ih4 k hk1, hc1tgt, dictGet_dictSet_ne _ _ _ _ hk2]

theorem containerAt_setVariableValue (p : Proc)
    (path varName value : String) (iid : Option Nat) (c : Container)
    (hc : p.getContainer path = some c) :
    ((p.setVariableValue path varName value iid).2).containerAt path
      = (c.setVariableValue varName value iid).2 := by
  unfold Proc.containerAt Proc.setVariableValue
  rw [hc]
  dsimp only
  rcases hset : c.setVariableValue varName value iid with ⟨b, c2⟩
  cases b
  · have hc2 : c2 = c := by
      have hb : (c.setVariableValue varName value iid).1 = false := by
        rw [hset]
      have h2 := setVariableValue_false hb
      rw [hset] at h2
      exact h2
    dsimp only
    unfold Proc.getContainer at hc ⊢
    rw [hc, hc2]
    rfl
  · dsimp only [Proc.recordChange, Proc.setContainer, Proc.getContainer]
    rw [dictGet_dictSet_self]
    rfl

/-- C4: from any reachable container placed in a processor, copying a
source instance onto a distinct in-range target succeeds, every variable of
the target then reads back as the source's value at call time, and a later
`set_variable_value` on the source leaves every variable reading of the
target unchanged (deep-copy independence). -/
theorem c4_copy_instance_deep (name path : String) (m : Mult)
    (defs : List (String × VarDef)) (ops : List InstOp)
    (hist : List ChangeRecord) (mc : Nat) (src dst : Nat)
    (varName value w : String)
    (hsrc : src < (applyOps (mkContainer name m defs) ops).instances.length)
    (hdst : dst < (applyOps (mkContainer name m defs) ops).instances.length)
    (hne : dst ≠ src) :
    ∃ q : Proc,
      (Proc.mk [(path, applyOps (mkContainer name m defs) ops)] hist
          mc).copyInstance path src (some dst) = .ok (true, q)
      ∧ (∀ w', (q.containerAt path).getVariableValue w' (some dst)
          = (applyOps (mkContainer name m defs) ops).getVariableValue w'
              (some src))
      ∧ (((q.setVariableValue path varName value (some src)).2).containerAt
            path).getVariableValue w (some dst)
          = (q.containerAt path).getVariableValue w (some dst) := by
  have hwf := wf_applyOps (wf_mkContainer name m defs) ops
  obtain ⟨hd, hcov, hkeys, hnd⟩ := hwf
  revert hsrc hdst
  generalize hc : applyOps (mkContainer name m defs) ops = c at *
  intro hsrc hdst
  have hpc : (Proc.mk [(path, c)] hist mc).getContainer path = some c := by
    simp [Proc.getContainer, dictGet]
  have hinstmem : c.instances.getD src dummyInstance ∈ c.instances := by
    rw [List.getD_eq_getElem?_getD, List.getElem?_eq_getElem hsrc]
    exact List.getElem_mem hsrc
  have hkeysSrc : keysOf (c.instances.getD src dummyInstance).vars
      = keysOf c.vars := hkeys _ hinstmem
  have hndSrc : (((c.instances.getD src dummyInstance).vars).map
      Prod.fst).Nodup := by
    show (keysOf (c.instances.getD src dummyInstance).vars).Nodup
    rw [hkeysSrc]
    exact hnd
  have hkeys' : ∀ pv ∈ (c.instances.getD src dummyInstance).vars,
      pv.1 ∈ keysOf c.vars := by
    intro pv hpv
    rw [← hkeysSrc]
    exact List.mem_map_of_mem Prod.fst hpv
  obtain ⟨cp1, cp2, cp3, cp4⟩ := copyVars_props
    (c.instances.getD src dummyInstance).vars c dst hkeys' hndSrc hdst
  have hcopy : (Proc.mk [(path, c)] hist mc).copyInstance path src (some dst)
      = .ok (true, (((Proc.mk [(path, c)] hist mc).setContainer path
          (copyVars c (c.instances.getD src dummyInstance).vars
            dst)).recordChange "copy_instance" path)) := by
    unfold Proc.copyInstance
    rw [hpc]
    dsimp only
    rw [if_pos hsrc, if_neg (Nat.not_le.mpr hdst)]
  refine ⟨_, hcopy, ?_, ?_⟩
  all_goals
    have hqc : ((((Proc.mk [(path, c)] hist mc).setContainer path
        (copyVars c (c.instances.getD src dummyInstance).vars
          dst)).recordChange "copy_instance" path)).containerAt path
        = copyVars c (c.instances.getD src dummyInstance).vars dst := by
      unfold Proc.containerAt Proc.getContainer Proc.recordChange
        Proc.setContainer
      dsimp only
      rw [dictGet_dictSet_self]
      rfl
  · intro w'
    rw [hqc]
    rw [getVariableValue_formula _ w' dst (by rw [cp1]; exact hdst),
      getVariableValue_formula c w' src hsrc]
    rcases hq : dictFind c.vars w' with _ | q
    · have h0 := cp2 w'
      rw [hq] at h0
      simp only [Option.map_none'] at h0
      rw [Option.map_eq_none'.mp h0]
      rfl
    · have h0 := cp2 w'
      rw [hq] at h0
      rcases hq2 : dictFind (copyVars c
          (c.instances.getD src dummyInstance).vars dst).vars w' with _ | q2
      · rw [hq2] at h0
        exact absurd h0 (by simp)
      · rw [hq2] at h0
        simp only [Option.map_some'] at h0
        have hwmem : w' ∈ keysOf c.vars := by
          rw [← dictGet_isSome_iff_mem, dictGet_eq_dictFind, hq]
          rfl
        have hsv : (dictGet (c.instances.getD src dummyInstance).vars
            w').isSome := by
          rw [dictGet_isSome_iff_mem, hkeysSrc]
          exact hwmem
        obtain ⟨sv, hsv2⟩ := Option.isSome_iff_exists.mp hsv
        have hpair : (w', sv) ∈ (c.instances.getD src dummyInstance).vars :=
          dictGet_mem_pair hsv2
        have h3 := cp3 (w', sv) hpair
        simp only [Option.map_some']
        rw [h3, hsv2]
        rfl
  · rw [containerAt_setVariableValue _ path varName value (some src)
      (copyVars c (c.instances.getD src dummyInstance).vars dst)
      (by
        unfold Proc.recordChange Proc.setContainer Proc.getContainer
        dsimp only
        exact dictGet_dictSet_self _ _ _),
      hqc]
    exact set_frame _ varName value src dst hne (by rw [cp1]; exact hdst) w

/-- Witness for C4: a two-instance container with one variable, sources and
targets concrete. -/
theorem c4_witness :
    0 < (applyOps (mkContainer "P" .star
        [("a", { defaultValue := some "0" })])
        [.create, .create, .setVar "a" "7" (some 0)]).instances.length
    ∧ 1 < (applyOps (mkContainer "P" .star
        [("a", { defaultValue := some "0" })])
        [.create, .create, .setVar "a" "7" (some 0)]).instances.length
    ∧ (1 : Nat) ≠ 0
    ∧ ∃ q : Proc,
      (Proc.mk [("P", applyOps (mkContainer "P" .star
          [("a", { defaultValue := some "0" })])
          [.create, .create, .setVar "a" "7" (some 0)])] [] 0).copyInstance
          "P" 0 (some 1) = .ok (true, q)
      ∧ (∀ w', (q.containerAt "P").getVariableValue w' (some 1)
          = (applyOps (mkContainer "P" .star
              [("a", { defaultValue := some "0" })])
              [.create, .create, .setVar "a" "7" (some 0)]).getVariableValue
              w' (some 0))
      ∧ (((q.setVariableValue "P" "a" "9" (some 0)).2).containerAt
            "P").getVariableValue "a" (some 1)
          = (q.containerAt "P").getVariableValue "a" (some 1) :=
  ⟨by decide, by decide, by decide,
    c4_copy_instance_deep "P" "P" .star
      [("a", { defaultValue := some "0" })]
      [.create, .create, .setVar "a" "7" (some 0)] [] 0 0 1 "a" "9" "a"
      (by decide) (by decide) (by decide)⟩

/-! ### Claim C10 -/

/-- C10: for every variable defined in a container, `get_variable_value` with
an instance id at or beyond the current instance count does not fail: it
returns the variable definition's default value (empty string when no default
is declared). -/
theorem c10_get_out_of_range_returns_default (c : Container)
    (varName : String) (vi : VarInfo) (instId : Nat)
    (hvar : dictGet c.vars varName = some vi)
    (hged : c.instances.length ≤ instId) :
    c.getVariableValue varName (some instId)
      = some vi.definition.getDefault := by
  unfold Container.getVariableValue
  rw [hvar]
  simp [Option.getD, hged]

/-- Witness for C10 at a concrete container with one declared variable, no
default, and no instances. -/
theorem c10_witness :
    dictGet (mkContainer "K" .star [("v", { defaultValue := none })]).vars
        "v" = some { definition := { defaultValue := none }, values := [] }
    ∧ (mkContainer "K" .star [("v", { defaultValue := none })]).instances.length ≤ 3
    ∧ (mkContainer "K" .star
        [("v", { defaultValue := none })]).getVariableValue "v" (some 3)
        = some (VarDef.getDefault { defaultValue := none }) :=
  ⟨by decide, by decide,
    c10_get_out_of_range_returns_default
      (mkContainer "K" .star [("v", { defaultValue := none })]) "v"
      { definition := { defaultValue := none }, values := [] } 3
      (by decide) (by decide)⟩

/-- C3: `create_instance` on a container already holding its numeric
multiplicity `n` of instances reports the instance-limit error, and the
processor-level `add_instance` returns `False` leaving the state (hence the
instance records) unchanged; moreover Scenario B holds: with multiplicity
`"2"`, two creations succeed with ids 0 and 1 and a third fails with the
count remaining 2. -/
theorem c3_multiplicity_bound (p : Proc) (path : String) (c : Container)
    (n : Nat) (hc : p.getContainer path = some c)
    (hm : c.multiplicity = .num n) (hlen : c.instances.length = n) :
    c.createInstance = .error "InstanceLimitExceeded"
    ∧ p.addInstance path = (false, p)
    ∧ (applyOps scenarioB [.create]).instances.map Instance.id = [0]
    ∧ (applyOps scenarioB [.create, .create]).instances.map Instance.id
        = [0, 1]
    ∧ isLimitError (applyOps scenarioB [.create, .create]).createInstance
        = true
    ∧ (applyOps scenarioB [.create, .create, .create]).instances.length = 2 := by
  have hatl : c.atLimit = true := by
    unfold Container.atLimit
    rw [hm]
    simp [hlen]
  have hcre : c.createInstance = .error "InstanceLimitExceeded" := by
    unfold Container.createInstance
    rw [hatl]
    rfl
  refine ⟨hcre, ?_, by decide, by decide, by decide, by decide⟩
  unfold Proc.addInstance
  rw [hc]
  simp only [hcre]

/-- Witness for C3: a processor holding Scenario B's container after two
creations, i.e. at its bound of 2. -/
theorem c3_witness :
    (Proc.mk [("B", applyOps scenarioB [.create, .create])] [] 0).getContainer
        "B" = some (applyOps scenarioB [.create, .create])
    ∧ (applyOps scenarioB [.create, .create]).multiplicity = .num 2
    ∧ (applyOps scenarioB [.create, .create]).instances.length = 2
    ∧ (applyOps scenarioB [.create, .create]).createInstance
        = .error "InstanceLimitExceeded" :=
  ⟨by decide, by decide, by decide,
    (c3_multiplicity_bound
      (Proc.mk [("B", applyOps scenarioB [.create, .create])] [] 0) "B"
      (applyOps scenarioB [.create, .create]) 2
      (by decide) (by decide) (by decide)).1⟩

/-- C9: a reachable state exists — here, a one-instance container whose only
instance has been removed by `delete_instance` — in which `switch_instance`
with the instance id omitted hits `(current + 1) % 0` and raises an
unhandled `ZeroDivisionError` instead of returning a boolean. -/
theorem c9_switch_on_empty_raises :
    (c9Start.deleteInstance "Ch" (some 0)).1 = true
    ∧ ((c9Start.deleteInstance "Ch" (some 0)).2.getContainer "Ch").map
        (fun c => c.instances.length) = some 0
    ∧ isZeroDivisionError
        ((c9Start.deleteInstance "Ch" (some 0)).2.switchInstance "Ch" none)
        = true := by
  decide

/-- C1 counterexample: when `autosar44.parse` raises (an internal exception
of the schema-aware extractor), `parse_arxml_file` reports failure to the
caller even though the generic XML walker would have succeeded on the same
document — so a failure is reported although only one of the two parsers
failed, contradicting the claim's "failure is reported only if both parsers
fail". -/
theorem c1_counterexample :
    (parseA44File true false (A44Outcome.exc (α := String) (β := String))
        (some c1FallbackStructure)).success = false
    ∧ (parseWithXmlProcessor (some c1FallbackStructure)).success = true := by
  exact ⟨rfl, rfl⟩

/-- C1 (amended): when the schema-aware extraction completes with zero
containers and zero parameters, `parse_arxml_file` hands over to the generic
XML walker — the caller's observed maps are then exactly the walker's output
and failure is reported only if the walker also fails; but an internal
exception that reaches `parse_arxml_file`'s top-level handler reports
failure immediately, without invoking the fallback. -/
theorem c1_zero_content_fallback {α β : Type} (isBswmd : Bool)
    (cs : List (String × α)) (vs : List (String × β))
    (xp : Option (XPStructure α β)) (hcs : cs = []) (hvs : vs = []) :
    parseA44File true isBswmd (A44Outcome.parsed cs vs) xp
      = parseWithXmlProcessor xp
    ∧ ((parseWithXmlProcessor xp).success = true ↔ xp ≠ none)
    ∧ (∀ s, xp = some s →
        (parseWithXmlProcessor xp).containers = s.containers
        ∧ (parseWithXmlProcessor xp).varsMap = s.parameters)
    ∧ (parseA44File true isBswmd (A44Outcome.exc (α := α) (β := β))
        xp).success = false := by
  subst hcs
  subst hvs
  refine ⟨?_, ?_, ?_, rfl⟩
  · show (if isBswmd then parseWithXmlProcessor xp
      else if true then parseWithXmlProcessor xp else _) = _
    by_cases hb : isBswmd <;> simp [hb]
  · cases xp <;> simp [parseWithXmlProcessor]
  · intro s hs
    subst hs
    exact ⟨rfl, rfl⟩

/-- Witness for C1's amended theorem at a concrete zero-content extraction
with a succeeding generic walker. -/
theorem c1_zero_content_fallback_witness :
    ([] : List (String × String)) = []
    ∧ ([] : List (String × String)) = []
    ∧ (parseA44File true false
        (A44Outcome.parsed ([] : List (String × String)) [])
        (some c1FallbackStructure)
      = parseWithXmlProcessor (some c1FallbackStructure)
    ∧ ((parseWithXmlProcessor (some c1FallbackStructure)).success = true
        ↔ some c1FallbackStructure ≠ none)
    ∧ (∀ s, some c1FallbackStructure = some s →
        (parseWithXmlProcessor (some c1FallbackStructure)).containers
            = s.containers
        ∧ (parseWithXmlProcessor
            (some c1FallbackStructure)).varsMap = s.parameters)
    ∧ (parseA44File true false
        (A44Outcome.exc (α := String) (β := String))
        (some c1FallbackStructure)).success = false) :=
  ⟨rfl, rfl, c1_zero_content_fallback false [] [] (some c1FallbackStructure)
    rfl rfl⟩

/-! ### Claim C6 -/

/-- C6: for a numerical parameter value, a definition-reference containing
the boolean marker maps text `"1"` to `"true"` and anything else to
`"false"`; otherwise the text is tried as an integer, then as a float, and
when both conversions fail it is kept as a string with the type downgraded
to string. -/
theorem c6_numerical_coercion (intOf : String → Option Int)
    (floatOf : String → Option String) (ref v : String) :
    (strContainsB ref "BOOLEAN" = true →
      coerceNumericalValue intOf floatOf ref v
        = { ptype := "boolean"
            value := if v = "1" then "true" else "false" })
    ∧ (strContainsB ref "BOOLEAN" = false → ∀ n, intOf v = some n →
      coerceNumericalValue intOf floatOf ref v
        = { ptype := "number", value := toString n })
    ∧ (strContainsB ref "BOOLEAN" = false → intOf v = none →
        ∀ f, floatOf v = some f →
      coerceNumericalValue intOf floatOf ref v
        = { ptype := "number", value := f })
    ∧ (strContainsB ref "BOOLEAN" = false → intOf v = none →
        floatOf v = none →
      coerceNumericalValue intOf floatOf ref v
        = { ptype := "string", value := v }) := by
  refine ⟨?_, ?_, ?_, ?_⟩
  · intro hb
    simp [coerceNumericalValue, hb]
  · intro hb n hn
    simp [coerceNumericalValue, hb, hn]
  · intro hb hn f hf
    simp [coerceNumericalValue, hb, hn, hf]
  · intro hb hn hf
    simp [coerceNumericalValue, hb, hn, hf]

/-- Witness for C6 at concrete inputs: a boolean-marked reference with text
`"1"`, and an unmarked reference whose text parses neither as int nor as
float. -/
theorem c6_witness :
    strContainsB "/Lin/LinGeneral/BOOLEAN/LinDevErrorDetect" "BOOLEAN" = true
    ∧ coerceNumericalValue (fun _ => none) (fun _ => none)
        "/Lin/LinGeneral/BOOLEAN/LinDevErrorDetect" "1"
        = { ptype := "boolean", value := "true" }
    ∧ strContainsB "/Lin/LinGeneral/LinIndex" "BOOLEAN" = false
    ∧ coerceNumericalValue (fun _ => none) (fun _ => none)
        "/Lin/LinGeneral/LinIndex" "abc"
        = { ptype := "string", value := "abc" } :=
  ⟨by decide,
    (c6_numerical_coercion (fun _ => none) (fun _ => none)
      "/Lin/LinGeneral/BOOLEAN/LinDevErrorDetect" "1").1 (by decide),
    by decide,
    (c6_numerical_coercion (fun _ => none) (fun _ => none)
      "/Lin/LinGeneral/LinIndex" "abc").2.2.2 (by decide) rfl rfl⟩

/-! ### Claim C7 -/

/-- C7 (Scenario A): extracting the structure of a definition document with
one module containing one container with an integer-tagged parameter
definition (default `"5"`) and a boolean-tagged one (default `"true"`)
yields a containers map of size 2 — the module `Mod` and the container
`Mod/Cont` — and a parameters map of size 2 whose entries have the inferred
types `INTEGER` and `BOOLEAN` and the declared defaults. -/
theorem c7_scenario_a_definition_document :
    (extractStructure 10 scenarioADoc).1.length = 2
    ∧ (extractStructure 10 scenarioADoc).1.map Prod.fst = ["Mod", "Mod/Cont"]
    ∧ (extractStructure 10 scenarioADoc).2.length = 2
    ∧ (dictGet (extractStructure 10 scenarioADoc).2 "Mod/Cont/P1").map
        PParam.ptype = some "INTEGER"
    ∧ (dictGet (extractStructure 10 scenarioADoc).2 "Mod/Cont/P1").map
        PParam.dflt = some "5"
    ∧ (dictGet (extractStructure 10 scenarioADoc).2 "Mod/Cont/P2").map
        PParam.ptype = some "BOOLEAN"
    ∧ (dictGet (extractStructure 10 scenarioADoc).2 "Mod/Cont/P2").map
        PParam.dflt = some "true" := by
  decide

/-! ### Claim C8 -/

/-- C8: a syntactically broken document makes the backend parse entry point
return the structured `_error_response` value: `success = false`, a
structured error message, the empty placeholder tree (no children, no
parameters) and zeroed statistics — never a partial tree. -/
theorem c8_malformed_document_no_partial_tree (filePath msg : String)
    (validArxml : Bool) (treeOut : TreeNode) (te cc pc : Nat) :
    backendParseArxml filePath true (.parseError msg) validArxml treeOut
        te cc pc
      = errorResponse ("XML ParseError: " ++ msg)
    ∧ (backendParseArxml filePath true (.parseError msg) validArxml treeOut
        te cc pc).success = false
    ∧ (backendParseArxml filePath true (.parseError msg) validArxml treeOut
        te cc pc).treeStructure.children = []
    ∧ (backendParseArxml filePath true (.parseError msg) validArxml treeOut
        te cc pc).treeStructure.parameters = []
    ∧ (backendParseArxml filePath true (.parseError msg) validArxml treeOut
        te cc pc).error = some ("XML ParseError: " ++ msg)
    ∧ (backendParseArxml filePath true (.parseError msg) validArxml treeOut
        te cc pc).metadata
      = { totalContainers := 0, totalParameters := 0, totalElements := 0 } :=
  ⟨rfl, rfl, rfl, rfl, rfl, rfl⟩

end ArxmlViewer
